import Mathlib

/-!
# brightness.c: command-line contract and display loop

A shallow embedding of `src/brightness.c` (`usage`, `name_of_display`, `main`)
and the properties of its argument loop and of its display loop.

## The model

* A C string is the list of its `char`s before the terminating NUL; the NULL
  pointer is `none`.
* A `float` is either NaN or a value of an abstract type `V` of the values
  that are not NaN. The program only tests `isnan` and passes values on.
* The C library (`strtof`, the text of the `"%.3f"` conversion) and IOKit (the
  return code of the enumeration, and for each display its info dictionary
  and the results of the get and the set call) are parameters: the program
  only interprets their results. `malloc` is taken to succeed.
* `fprintf` appends its text to the stream; `stdout` and `stderr` are kept
  apart, and `fflush` changes neither.
* `(int) strlen(name)` is a conversion to 32 bits. The counter
  `number_of_displays_set` is incremented without overflow.
* A run ends in an `Outcome`: the process exits with a status, the `assert`
  fails, or an operation without defined behaviour is reached (`strlen(NULL)`
  in the display loop, a read past the end of `argv`).
-/

namespace Brightness

/-- A C string: the `char`s before the terminating NUL. -/
abbrev CString := List Char

/-- The character `arg[i]`, for an index up to the terminating NUL, which reads
as `'\0'`. -/
def charAt (s : CString) (i : Nat) : Char := s.getD i (Char.ofNat 0)

/-- A C `float`: NaN, or a value that is not NaN. -/
inductive CFloat (V : Type) where
  | nan : CFloat V
  | val (v : V) : CFloat V
  deriving DecidableEq, Repr

/-- The C macro `isnan`. -/
def isnan {V : Type} : CFloat V → Bool
  | .nan => true
  | .val _ => false

/-- The constant `NAN`. -/
def NAN {V : Type} : CFloat V := .nan

/-- The type `IOReturn` (`kern_return_t`, a C `int`). -/
abbrev IOReturn := Int

/-- The code `kIOReturnSuccess`. -/
def kIOReturnSuccess : IOReturn := 0

/-- The status `EXIT_SUCCESS`. -/
def EXIT_SUCCESS : Int := 0

/-- The status `EXIT_FAILURE`. -/
def EXIT_FAILURE : Int := 1

/-- The value of `errno` after a range error. -/
def ERANGE : Int := 34

/-- The constant `static const int NAME_WIDTH = 20;`. -/
def NAME_WIDTH : Int := 20

/-- What one call `strtof(arg, &eptr)` made with `errno = 0` leaves behind:
the returned value, the offset `eptr - arg`, and `errno`. -/
structure StrtofResult (V : Type) where
  value : CFloat V
  eptr : Nat
  errno : Int

/-- The C library functions `main` relies on. -/
structure Libc (V : Type) where
  /-- The call `strtof(arg, &eptr)` made with `errno = 0`. -/
  strtof : CString → StrtofResult V
  /-- The text `fprintf` writes for `BR_FMT`, that is `"%.3f"`. -/
  printf_3f : CFloat V → CString

/-- One display yielded by the iterator, with the answers IOKit gives for it. -/
structure Display (V : Type) where
  /-- The `io_object_t` handle returned by `IOIteratorNext`. -/
  handle : Nat
  /-- The result of `IODisplayCreateInfoDictionary`: `none` when it returns NULL; inside,
  the value stored under `kDisplayProductName` (`none` when absent), given by
  the values of that dictionary in the order `CFDictionaryGetKeysAndValues`
  reports them. -/
  info : Option (Option (List CString))
  /-- The result of `IODisplayGetFloatParameter`: the return code and the value stored in `b`. -/
  get : IOReturn × CFloat V
  /-- The result of `IODisplaySetFloatParameter` for a given brightness: the return code. -/
  set : CFloat V → IOReturn

/-- The display services as the run sees them. -/
structure IOKit (V : Type) where
  /-- Return code of `IOServiceGetMatchingServices`. -/
  matching : IOReturn
  /-- The displays the iterator yields, in order. -/
  displays : List (Display V)

/-- The streams a `FILE *` of the program can point to. -/
inductive FILE where
  | stdout
  | stderr
  deriving DecidableEq, Repr

/-- A call into the display services. -/
inductive Event (V : Type) where
  | getMatchingServices : Event V
  | getFloat (display : Nat) : Event V
  | setFloat (display : Nat) (brightness : CFloat V) : Event V
  deriving DecidableEq, Repr

/-- The state of a run from the enumeration on: what has been written to each
stream, the calls made into the display services, and the variable `argc`,
which `main` reuses as `number_of_displays_set` (a run that ends in the
argument loop is reported with 0 in this field). -/
structure World (V : Type) where
  out : CString
  err : CString
  log : List (Event V)
  number_of_displays_set : Int
  deriving DecidableEq, Repr

/-- How a run ends. -/
inductive Outcome (V : Type) where
  /-- The process ended by `exit(status)` or `return status` from `main`. -/
  | exited (status : Int) (w : World V) : Outcome V
  /-- The `assert` before the enumeration failed. -/
  | assertFailed (w : World V) : Outcome V
  /-- An operation without defined behaviour was reached, such as
  `strlen(NULL)`; `w` is the state just before it. -/
  | undefined (w : World V) : Outcome V
  deriving DecidableEq, Repr

/-- The text `usage` prints to `stderr`. -/
def usageText : CString :=
  ("Usage: brightness [-d name_of_display] [-s] [brightness_to_set]\n\n" ++
   "- brightness range is from 0.0 (min) to 1.0 (max) on all\n" ++
   "  display's I've tested, but other values are supported\n" ++
   "- all applicable displays are set unless a single one is\n" ++
   "  named with the -d option\n" ++
   "- names of displays and their current brightnesses\n" ++
   "  are printed if no arguments are given\n" ++
   "- the option -s silences non-error output\n\n" ++
   "Copyright (c) 2014 Kimmo Kulovesi, arkku.com\n").toList

/-- The local variables of `main` that the argument loop sets. -/
structure Options (V : Type) where
  outfile : Option FILE
  only_set_one_display : Option CString
  brightness : CFloat V
  deriving DecidableEq, Repr

/-- The initial values: `outfile = stdout`, `only_set_one_display = NULL`,
`brightness = NAN`. -/
def Options.init {V : Type} : Options V :=
  { outfile := some FILE.stdout, only_set_one_display := none, brightness := NAN }

/-- How the argument loop ends. -/
inductive ParseResult (V : Type) where
  /-- The loop condition `--argc` became zero; `argc` is the value left. -/
  | done (argc : Int) (o : Options V) : ParseResult V
  /-- The process ended by `exit(status)` in the loop; `err` is all that was
  written to `stderr`. -/
  | exited (status : Int) (err : CString) : ParseResult V
  /-- The loop read past the end of `argv`. -/
  | undefined : ParseResult V
  deriving DecidableEq, Repr

/-- The function `usage`, called after `written` has been written to `stderr`:
it writes the usage text to `stderr` and calls `exit(status)`. -/
def usage {V : Type} (status : Int) (written : CString) : ParseResult V :=
  .exited status (written ++ usageText)

/-- The test `arg[0] == '-' && arg[1] && arg[2] == '\0'`. -/
def isOption (arg : CString) : Bool :=
  charAt arg 0 == '-' && charAt arg 1 != Char.ofNat 0 && charAt arg 2 == Char.ofNat 0

/-- The branch `else if (isnan(brightness))` and what follows it, for an
argument that is not of the option form. -/
def parseValue {V : Type} (lc : Libc V) (arg : CString) (o : Options V) :
    Except (ParseResult V) (Options V) :=
  let invalid : ParseResult V :=
    usage EXIT_FAILURE ("Invalid argument: ".toList ++ arg ++ "\n".toList)
  if isnan o.brightness then
    let r := lc.strtof arg
    if r.eptr ≠ 0 ∧ r.errno ≠ ERANGE then
      .ok { o with brightness := r.value }
    else
      .error invalid
  else
    .error invalid

/-- The argument loop `while (--argc) { char *arg = *(++argv); ... }`.
`rest` holds the entries of `argv` after the one `argv` points to, up to the
terminating NULL pointer. -/
def parseLoop {V : Type} (lc : Libc V) : Int → List CString → Options V → ParseResult V
  | argc, rest, o =>
    if argc - 1 = 0 then .done (argc - 1) o
    else
      match rest with
      | [] => .undefined
      | arg :: rest =>
        if isOption arg then
          let invalid : ParseResult V :=
            usage EXIT_FAILURE ("Invalid option: ".toList ++ arg ++ "\n".toList)
          if charAt arg 1 = 's' ∨ charAt arg 1 = 'q' then
            parseLoop lc (argc - 1) rest { o with outfile := none }
          else if charAt arg 1 = 'h' ∨ charAt arg 1 = '?' then
            usage EXIT_SUCCESS []
          else if charAt arg 1 = 'd' ∨ charAt arg 1 = 'm' then
            if argc - 1 - 1 ≠ 0 then
              match rest with
              | [] => parseLoop lc (argc - 1 - 1) [] { o with only_set_one_display := none }
              | name :: rest =>
                parseLoop lc (argc - 1 - 1) rest { o with only_set_one_display := some name }
            else invalid
          else invalid
        else
          match parseValue lc arg o with
          | .ok o => parseLoop lc (argc - 1) rest o
          | .error r => r

/-- The function `c_string_from_cfstring`: the string as a C string (`malloc`
is taken to succeed, and the model holds each name as the C string the
conversion yields). -/
def c_string_from_cfstring (cf : CString) : CString := cf

/-- The function `name_of_display`: the first value of the product-name dictionary when the
info dictionary and the name dictionary exist and the latter has one or two
entries; `none` stands for the NULL pointer. -/
def name_of_display {V : Type} (display : Display V) : Option CString :=
  match display.info with
  | none => none
  | some none => none
  | some (some values) =>
    if 1 ≤ values.length ∧ values.length ≤ 2 then
      match values with
      | [] => none
      | v :: _ => some (c_string_from_cfstring v)
    else none

/-- Conversion of an integer to a C `int` (32 bits, two's complement). -/
def toInt32 (n : Int) : Int := (n + 2 ^ 31) % 2 ^ 32 - 2 ^ 31

/-- The width passed for `%*s`:
`int len = (int) strlen(name); len = (len < NAME_WIDTH) ? (NAME_WIDTH - len) : 0;`
(the subtraction is taken without overflow). -/
def padWidth (name : CString) : Int :=
  let len : Int := toInt32 name.length
  if len < NAME_WIDTH then NAME_WIDTH - len else 0

/-- What `"%*s"` writes for the width `width` and the empty string. -/
def printfPad (width : Int) : CString := List.replicate width.natAbs ' '

/-- What `"%lu"` writes for `(unsigned long) err`. -/
def printf_lu (err : IOReturn) : CString := Nat.toDigits 10 (err % 2 ^ 64).toNat

/-- The text of `fprintf(outfile, "'%s'%*s ", name, len, "")`. -/
def nameField (name : CString) : CString :=
  "'".toList ++ name ++ "'".toList ++ printfPad (padWidth name) ++ " ".toList

/-- The call `fprintf(f, ...)` writing the text `s`. -/
def fprintf {V : Type} (f : FILE) (s : CString) (w : World V) : World V :=
  match f with
  | .stdout => { w with out := w.out ++ s }
  | .stderr => { w with err := w.err ++ s }

/-- The guarded call `if (outfile) fprintf(outfile, ...)`: nothing is written
when `outfile` is NULL. -/
def fprintfIf {V : Type} (outfile : Option FILE) (s : CString) (w : World V) : World V :=
  match outfile with
  | none => w
  | some f => fprintf f s w

/-- The condition of the `goto next_display`:
`only_set_one_display && (!name || strcmp(only_set_one_display, name) != 0)`. -/
def skipped {V : Type} (o : Options V) (name : Option CString) : Bool :=
  match o.only_set_one_display, name with
  | none, _ => false
  | some _, none => true
  | some f, some n => f != n

/-- The block that reads the brightness and, when one was requested, sets it,
up to the final newline (lines 150 to 178). -/
def getAndSet {V : Type} (lc : Libc V) (o : Options V) (display : Display V)
    (w : World V) : World V :=
  let err := display.get.1
  let b := display.get.2
  let w := { w with log := w.log ++ [Event.getFloat display.handle] }
  let w := if err = kIOReturnSuccess then fprintfIf o.outfile (lc.printf_3f b) w else w
  let w :=
    if err = kIOReturnSuccess ∧ isnan o.brightness = false then
      let err := display.set o.brightness
      let w := { w with log := w.log ++ [Event.setFloat display.handle o.brightness] }
      if err = kIOReturnSuccess then
        fprintfIf o.outfile (" -> ".toList ++ lc.printf_3f o.brightness)
          { w with number_of_displays_set := w.number_of_displays_set + 1 }
      else
        fprintf FILE.stderr
          ("\nError: Could not set brightness (".toList ++ printf_lu err ++ ").\n".toList) w
    else w
  fprintfIf o.outfile "\n".toList w

/-- One iteration of the display loop. `.ok` is the state at `next_display`;
`.error` is the state in which `strlen(NULL)` is reached. -/
def displayStep {V : Type} (lc : Libc V) (o : Options V) (w : World V)
    (display : Display V) : Except (World V) (World V) :=
  let name := name_of_display display
  if skipped o name then .ok w
  else
    match o.outfile, name with
    | none, _ => .ok (getAndSet lc o display w)
    | some _, none => .error w
    | some f, some s => .ok (getAndSet lc o display (fprintf f (nameField s) w))

/-- The loop `while (IOIteratorIsValid(iter) && (display = IOIteratorNext(iter)))`
over the displays the iterator yields. -/
def displayLoop {V : Type} (lc : Libc V) (o : Options V) :
    World V → List (Display V) → Except (World V) (World V)
  | w, [] => .ok w
  | w, display :: rest =>
    match displayStep lc o w display with
    | .ok w => displayLoop lc o w rest
    | .error w => .error w

/-- The end of `main` (lines 187 to 192). -/
def report {V : Type} (o : Options V) (w : World V) : Outcome V :=
  if isnan o.brightness = false ∧ w.number_of_displays_set < 1 then
    .exited EXIT_FAILURE
      (fprintf FILE.stderr
        ("Error: No ".toList ++
          (if o.only_set_one_display.isSome then "matching ".toList else []) ++
          "displays could be set\n".toList) w)
  else .exited EXIT_SUCCESS w

/-- The part of `main` after the argument loop, entered with the value
`argc` has then. -/
def enumerate {V : Type} (lc : Libc V) (io : IOKit V) (argc : Int) (o : Options V) :
    Outcome V :=
  let w : World V := { out := [], err := [], log := [], number_of_displays_set := argc }
  if w.number_of_displays_set ≠ 0 then .assertFailed w
  else
    let w := { w with log := w.log ++ [Event.getMatchingServices] }
    if io.matching ≠ kIOReturnSuccess then
      .exited EXIT_FAILURE
        (fprintf FILE.stderr
          ("Error: Could not get displays (code ".toList ++ printf_lu io.matching ++
            ")\n".toList) w)
    else
      match displayLoop lc o w io.displays with
      | .ok w => report o w
      | .error w => .undefined w

/-- The function `main`, called with `argc = argv.length` and the entries of
`argv` before its terminating NULL pointer. -/
def main {V : Type} (lc : Libc V) (io : IOKit V) (argv : List CString) : Outcome V :=
  let w : World V := { out := [], err := [], log := [], number_of_displays_set := 0 }
  match argv with
  | [] => .undefined w
  | _ :: rest =>
    match parseLoop lc argv.length rest Options.init with
    | .done argc o => enumerate lc io argc o
    | .exited status err => .exited status { w with err := err }
    | .undefined => .undefined w

/-- The argument loop as `main` enters it: `argc` counts the program name and
the arguments `args` that follow it. -/
def parseArgs {V : Type} (lc : Libc V) (args : List CString) (o : Options V) : ParseResult V :=
  parseLoop lc ((args.length + 1 : Nat) : Int) args o

/-- In the words of the spec, a display successfully set: it passes the name
filter, its brightness is read without error, a brightness was requested, and
the write returns without error. -/
def isSet {V : Type} (o : Options V) (display : Display V) : Bool :=
  !skipped o (name_of_display display) && decide (display.get.1 = kIOReturnSuccess) &&
    !isnan o.brightness && decide (display.set o.brightness = kIOReturnSuccess)

/-- In the words of the spec, the number of displays successfully set. -/
def countSet {V : Type} (o : Options V) (displays : List (Display V)) : Nat :=
  displays.countP (isSet o)

/-- The state in which the display loop starts after a successful call of
`IOServiceGetMatchingServices`. -/
def loopStart {V : Type} : World V :=
  { out := [], err := [], log := [Event.getMatchingServices], number_of_displays_set := 0 }

/-! ## A sample C library and sample displays -/

/-- A finite `float` written as `m * 2 ^ e`, given as the pair `(m, e)`. -/
abbrev Dyadic := Int × Int

/-- The digits of `n`, padded with zeros on the left to at least `width` digits. -/
def zeroPad (width n : Nat) : CString :=
  let ds := Nat.toDigits 10 n
  List.replicate (width - ds.length) '0' ++ ds

/-- The `"%.3f"` conversion of a dyadic value, rounding to nearest, ties to even. -/
def sample_printf_3f : CFloat Dyadic → CString
  | .nan => "nan".toList
  | .val (m, e) =>
    let num := m.natAbs * 1000 * 2 ^ e.toNat
    let den := 2 ^ (-e).toNat
    let q := num / den
    let r := num % den
    let t := if den < 2 * r ∨ (2 * r = den ∧ q % 2 = 1) then q + 1 else q
    (if m < 0 then "-".toList else []) ++ Nat.toDigits 10 (t / 1000) ++ ".".toList ++
      zeroPad 3 (t % 1000)

/-- What `strtof` of C99 returns on a few tokens; on every other token the
sample converts nothing (`eptr == arg`). -/
def sample_strtof (arg : CString) : StrtofResult Dyadic :=
  if arg = "0".toList then { value := .val (0, 0), eptr := 1, errno := 0 }
  else if arg = "1".toList then { value := .val (1, 0), eptr := 1, errno := 0 }
  else if arg = "0.5".toList then { value := .val (1, -1), eptr := 3, errno := 0 }
  else if arg = "0.25".toList then { value := .val (1, -2), eptr := 4, errno := 0 }
  else if arg = "0.3".toList then { value := .val (10066330, -25), eptr := 3, errno := 0 }
  else if arg = "-5".toList then { value := .val (-5, 0), eptr := 2, errno := 0 }
  else if arg = "-.5".toList then { value := .val (-1, -1), eptr := 3, errno := 0 }
  else if arg = "nan".toList then { value := .nan, eptr := 3, errno := 0 }
  else { value := .val (0, 0), eptr := 0, errno := 0 }

/-- The sample C library. -/
def sampleLibc : Libc Dyadic :=
  { strtof := sample_strtof, printf_3f := sample_printf_3f }

/-- A display with one product name that answers every call with success. -/
def namedDisplay (handle : Nat) (name : String) (b : Dyadic) : Display Dyadic :=
  { handle := handle, info := some (some [name.toList]),
    get := (kIOReturnSuccess, .val b), set := fun _ => kIOReturnSuccess }

/-- A display without an info dictionary that answers every call with success. -/
def namelessDisplay (handle : Nat) (b : Dyadic) : Display Dyadic :=
  { handle := handle, info := none,
    get := (kIOReturnSuccess, .val b), set := fun _ => kIOReturnSuccess }

/-- The two displays of the scenarios: "Color LCD" at 0.8 and "External" at 0.5. -/
def twoDisplays : IOKit Dyadic :=
  { matching := kIOReturnSuccess,
    displays := [namedDisplay 1 "Color LCD" (13421773, -24), namedDisplay 2 "External" (1, -1)] }

/-- The command line `brightness` followed by `args`. -/
def cmd (args : List String) : List CString := "brightness".toList :: args.map String.toList

/-! ## The argument loop -/

section ArgumentLoop

variable {V : Type}

theorem parseArgs_nil (lc : Libc V) (o : Options V) : parseArgs lc [] o = .done 0 o := by
  simp [parseArgs, parseLoop]

/-- One turn of the argument loop under the contract of `main`. -/
theorem parseArgs_cons (lc : Libc V) (arg : CString) (rest : List CString) (o : Options V) :
    parseArgs lc (arg :: rest) o =
      if isOption arg then
        if charAt arg 1 = 's' ∨ charAt arg 1 = 'q' then
          parseArgs lc rest { o with outfile := none }
        else if charAt arg 1 = 'h' ∨ charAt arg 1 = '?' then
          ParseResult.exited EXIT_SUCCESS usageText
        else if charAt arg 1 = 'd' ∨ charAt arg 1 = 'm' then
          match rest with
          | [] => ParseResult.exited EXIT_FAILURE
              ("Invalid option: ".toList ++ arg ++ "\n".toList ++ usageText)
          | name :: rest => parseArgs lc rest { o with only_set_one_display := some name }
        else ParseResult.exited EXIT_FAILURE
              ("Invalid option: ".toList ++ arg ++ "\n".toList ++ usageText)
      else
        match parseValue lc arg o with
        | .ok o => parseArgs lc rest o
        | .error r => r := by
  have h1 : (((arg :: rest).length + 1 : Nat) : Int) - 1 = ((rest.length + 1 : Nat) : Int) := by
    simp
  have h2 : ¬ (((rest.length + 1 : Nat) : Int) = 0) := by
    have := Nat.succ_ne_zero rest.length
    exact_mod_cast this
  unfold parseArgs
  rw [parseLoop.eq_def]
  simp only [h1, h2, if_false, usage, List.nil_append]
  cases rest with
  | nil => simp
  | cons name rest' =>
    have h4 : ¬ (((rest'.length + 1 : Nat) : Int) = 0) := by
      have := Nat.succ_ne_zero rest'.length
      exact_mod_cast this
    have h3 : (((name :: rest').length + 1 : Nat) : Int) - 1 = ((rest'.length + 1 : Nat) : Int) := by
      simp
    simp only [h3, h4, ne_eq, not_false_eq_true, if_true]

/-- Induction over an argument list that follows the loop: a turn consumes one
argument, or two for `-d` and `-m`. -/
theorem args_induction {P : List CString → Prop} (nil : P [])
    (step : ∀ arg rest, P rest → (∀ name rest', rest = name :: rest' → P rest') →
      P (arg :: rest)) : ∀ args, P args := by
  have key : ∀ args, P args ∧ P args.tail := by
    intro args
    induction args with
    | nil => exact ⟨nil, nil⟩
    | cons arg rest ih =>
      refine ⟨step arg rest ih.1 ?_, ih.1⟩
      intro name rest' h
      have := ih.2
      rw [h] at this
      exact this
  exact fun args => (key args).1

theorem parseValue_ok {lc : Libc V} {arg : CString} {o o' : Options V}
    (h : parseValue lc arg o = .ok o') :
    isnan o.brightness = true ∧ (lc.strtof arg).eptr ≠ 0 ∧ (lc.strtof arg).errno ≠ ERANGE ∧
      o' = { o with brightness := (lc.strtof arg).value } := by
  unfold parseValue at h
  split at h
  · rename_i h1
    simp only at h
    split at h
    · rename_i h2
      simp only [Except.ok.injEq] at h
      exact ⟨h1, h2.1, h2.2, h.symm⟩
    · simp at h
  · simp at h

theorem parseValue_error {lc : Libc V} {arg : CString} {o : Options V} {r : ParseResult V}
    (h : parseValue lc arg o = .error r) :
    r = ParseResult.exited EXIT_FAILURE ("Invalid argument: ".toList ++ arg ++ "\n".toList ++ usageText) := by
  unfold parseValue at h
  split at h
  · simp only at h
    split at h
    · simp at h
    · simp only [Except.error.injEq] at h
      exact h.symm
  · simp only [Except.error.injEq] at h
    exact h.symm

/-- The turns after which the loop can still reach its end: `-s`/`-q`,
`-d`/`-m` with a following argument, or an accepted brightness value. -/
theorem parseArgs_cons_done {lc : Libc V} {arg : CString} {rest : List CString}
    {o o' : Options V} {a : Int} (h : parseArgs lc (arg :: rest) o = .done a o') :
    (isOption arg = true ∧ (charAt arg 1 = 's' ∨ charAt arg 1 = 'q') ∧
        parseArgs lc rest { o with outfile := none } = .done a o') ∨
    (isOption arg = true ∧ ¬ (charAt arg 1 = 's' ∨ charAt arg 1 = 'q') ∧
        ¬ (charAt arg 1 = 'h' ∨ charAt arg 1 = '?') ∧
        (charAt arg 1 = 'd' ∨ charAt arg 1 = 'm') ∧
        ∃ name rest', rest = name :: rest' ∧
          parseArgs lc rest' { o with only_set_one_display := some name } = .done a o') ∨
    (isOption arg = false ∧
        ∃ o1, parseValue lc arg o = .ok o1 ∧ parseArgs lc rest o1 = .done a o') := by
  rw [parseArgs_cons] at h
  by_cases hopt : isOption arg = true
  · simp only [hopt, if_true] at h
    by_cases hs : charAt arg 1 = 's' ∨ charAt arg 1 = 'q'
    · simp only [hs, if_true] at h
      exact Or.inl ⟨hopt, hs, h⟩
    · simp only [hs, if_false] at h
      by_cases hh : charAt arg 1 = 'h' ∨ charAt arg 1 = '?'
      · simp only [hh, if_true] at h
        exact absurd h (by simp)
      · simp only [hh, if_false] at h
        by_cases hd : charAt arg 1 = 'd' ∨ charAt arg 1 = 'm'
        · simp only [hd, if_true] at h
          cases rest with
          | nil => simp at h
          | cons name rest' =>
            exact Or.inr (Or.inl ⟨hopt, hs, hh, hd, name, rest', rfl, h⟩)
        · simp only [hd, if_false] at h
          exact absurd h (by simp)
  · have hopt' : isOption arg = false := by simpa using hopt
    simp only [hopt', Bool.false_eq_true, if_false] at h
    cases hv : parseValue lc arg o with
    | error r =>
      rw [hv] at h
      simp only at h
      rw [parseValue_error hv] at h
      exact absurd h (by simp)
    | ok o1 =>
      rw [hv] at h
      exact Or.inr (Or.inr ⟨hopt', o1, rfl, h⟩)

theorem parseArgs_quiet (lc : Libc V) (arg : CString) (rest : List CString) (o : Options V)
    (hopt : isOption arg = true) (hs : charAt arg 1 = 's' ∨ charAt arg 1 = 'q') :
    parseArgs lc (arg :: rest) o = parseArgs lc rest { o with outfile := none } := by
  rw [parseArgs_cons]
  simp only [hopt, hs, if_true]

theorem parseArgs_help (lc : Libc V) (arg : CString) (rest : List CString) (o : Options V)
    (hopt : isOption arg = true) (hs : ¬ (charAt arg 1 = 's' ∨ charAt arg 1 = 'q'))
    (hh : charAt arg 1 = 'h' ∨ charAt arg 1 = '?') :
    parseArgs lc (arg :: rest) o = ParseResult.exited EXIT_SUCCESS usageText := by
  rw [parseArgs_cons]
  simp only [hopt, hs, hh, if_true, if_false]

theorem parseArgs_filter (lc : Libc V) (arg name : CString) (rest : List CString)
    (o : Options V) (hopt : isOption arg = true)
    (hs : ¬ (charAt arg 1 = 's' ∨ charAt arg 1 = 'q'))
    (hh : ¬ (charAt arg 1 = 'h' ∨ charAt arg 1 = '?'))
    (hd : charAt arg 1 = 'd' ∨ charAt arg 1 = 'm') :
    parseArgs lc (arg :: name :: rest) o =
      parseArgs lc rest { o with only_set_one_display := some name } := by
  rw [parseArgs_cons]
  simp only [hopt, hs, hh, hd, if_true, if_false]

theorem parseArgs_filter_missing (lc : Libc V) (arg : CString) (o : Options V)
    (hopt : isOption arg = true)
    (hs : ¬ (charAt arg 1 = 's' ∨ charAt arg 1 = 'q'))
    (hh : ¬ (charAt arg 1 = 'h' ∨ charAt arg 1 = '?'))
    (hd : charAt arg 1 = 'd' ∨ charAt arg 1 = 'm') :
    parseArgs lc [arg] o =
      ParseResult.exited EXIT_FAILURE ("Invalid option: ".toList ++ arg ++ "\n".toList ++ usageText) := by
  rw [parseArgs_cons]
  simp only [hopt, hs, hh, hd, if_true, if_false]

theorem parseArgs_unknown_option (lc : Libc V) (arg : CString) (rest : List CString)
    (o : Options V) (hopt : isOption arg = true)
    (hs : ¬ (charAt arg 1 = 's' ∨ charAt arg 1 = 'q'))
    (hh : ¬ (charAt arg 1 = 'h' ∨ charAt arg 1 = '?'))
    (hd : ¬ (charAt arg 1 = 'd' ∨ charAt arg 1 = 'm')) :
    parseArgs lc (arg :: rest) o =
      .exited EXIT_FAILURE ("Invalid option: ".toList ++ arg ++ "\n".toList ++ usageText) := by
  rw [parseArgs_cons]
  simp only [hopt, hs, hh, hd, if_true, if_false]

theorem parseArgs_value (lc : Libc V) (arg : CString) (rest : List CString) (o : Options V)
    (hopt : isOption arg = false) :
    parseArgs lc (arg :: rest) o =
      match parseValue lc arg o with
      | .ok o => parseArgs lc rest o
      | .error r => r := by
  rw [parseArgs_cons]
  simp only [hopt, Bool.false_eq_true, if_false]

/-- Arguments that the loop accepts can be followed by any others: the loop
goes on with them from the options reached. -/
theorem parseArgs_append (lc : Libc V) (suf : List CString) :
    ∀ (pre : List CString) (o o' : Options V) (a : Int),
      parseArgs lc pre o = .done a o' → parseArgs lc (pre ++ suf) o = parseArgs lc suf o' := by
  intro pre
  induction pre using args_induction with
  | nil =>
    intro o o' a h
    rw [parseArgs_nil] at h
    simp only [ParseResult.done.injEq] at h
    simp [h.2]
  | step arg rest ih1 ih2 =>
    intro o o' a h
    rw [List.cons_append]
    rcases parseArgs_cons_done h with ⟨hopt, hs, h'⟩ | ⟨hopt, hs, hh, hd, name, rest', hr, h'⟩ |
      ⟨hopt, o1, hv, h'⟩
    · rw [parseArgs_quiet lc arg _ o hopt hs]
      exact ih1 _ _ _ h'
    · subst hr
      rw [List.cons_append, parseArgs_filter lc arg name _ o hopt hs hh hd]
      exact ih2 name rest' rfl _ _ _ h'
    · rw [parseArgs_value lc arg _ o hopt, hv]
      exact ih1 _ _ _ h'

/-- When the loop reaches its end, `argc` is zero. -/
theorem parseArgs_done_argc (lc : Libc V) :
    ∀ (args : List CString) (o o' : Options V) (a : Int),
      parseArgs lc args o = .done a o' → a = 0 := by
  intro args
  induction args using args_induction with
  | nil =>
    intro o o' a h
    rw [parseArgs_nil] at h
    simp only [ParseResult.done.injEq] at h
    exact h.1.symm
  | step arg rest ih1 ih2 =>
    intro o o' a h
    rcases parseArgs_cons_done h with ⟨_, _, h'⟩ | ⟨_, _, _, _, name, rest', hr, h'⟩ |
      ⟨_, o1, _, h'⟩
    · exact ih1 _ _ _ h'
    · exact ih2 name rest' hr _ _ _ h'
    · exact ih1 _ _ _ h'

/-- The loop never clears the quiet setting: once `outfile` is NULL it stays so. -/
theorem parseArgs_outfile_none (lc : Libc V) :
    ∀ (args : List CString) (o o' : Options V) (a : Int),
      parseArgs lc args o = .done a o' → o.outfile = none → o'.outfile = none := by
  intro args
  induction args using args_induction with
  | nil =>
    intro o o' a h hq
    rw [parseArgs_nil] at h
    simp only [ParseResult.done.injEq] at h
    rw [← h.2]
    exact hq
  | step arg rest ih1 ih2 =>
    intro o o' a h hq
    rcases parseArgs_cons_done h with ⟨_, _, h'⟩ | ⟨_, _, _, _, name, rest', hr, h'⟩ |
      ⟨_, o1, hv, h'⟩
    · exact ih1 _ _ _ h' rfl
    · exact ih2 name rest' hr _ _ _ h' hq
    · refine ih1 _ _ _ h' ?_
      rw [(parseValue_ok hv).2.2.2]
      exact hq

/-- Under the contract of `main` the loop never reads past the end of `argv`. -/
theorem parseArgs_defined (lc : Libc V) :
    ∀ (args : List CString) (o : Options V), parseArgs lc args o ≠ .undefined := by
  intro args
  induction args using args_induction with
  | nil =>
    intro o
    rw [parseArgs_nil]
    simp
  | step arg rest ih1 ih2 =>
    intro o
    rw [parseArgs_cons]
    split
    · split
      · exact ih1 _
      · split
        · simp
        · split
          · cases rest with
            | nil => simp
            | cons name rest' => exact ih2 name rest' rfl _
          · simp
    · cases hv : parseValue lc arg o with
      | error r =>
        simp only
        rw [parseValue_error hv]
        simp
      | ok o1 => exact ih1 _

/-- The loop never points `outfile` to `stderr`. -/
theorem parseArgs_outfile_ne_stderr (lc : Libc V) :
    ∀ (args : List CString) (o o' : Options V) (a : Int),
      parseArgs lc args o = .done a o' → o.outfile ≠ some FILE.stderr →
        o'.outfile ≠ some FILE.stderr := by
  intro args
  induction args using args_induction with
  | nil =>
    intro o o' a h hq
    rw [parseArgs_nil] at h
    simp only [ParseResult.done.injEq] at h
    rw [← h.2]
    exact hq
  | step arg rest ih1 ih2 =>
    intro o o' a h hq
    rcases parseArgs_cons_done h with ⟨_, _, h'⟩ | ⟨_, _, _, _, name, rest', hr, h'⟩ |
      ⟨_, o1, hv, h'⟩
    · exact ih1 _ _ _ h' (by simp)
    · exact ih2 name rest' hr _ _ _ h' hq
    · refine ih1 _ _ _ h' ?_
      rw [(parseValue_ok hv).2.2.2]
      exact hq

end ArgumentLoop

/-! ## The display loop -/

section DisplayLoop

variable {V : Type}

theorem getAndSet_log (lc : Libc V) (o : Options V) (d : Display V) (w : World V) :
    (getAndSet lc o d w).log =
      w.log ++ [Event.getFloat d.handle] ++
        (if d.get.1 = kIOReturnSuccess ∧ isnan o.brightness = false then
          [Event.setFloat d.handle o.brightness] else []) := by
  unfold getAndSet
  rcases ho : o.outfile with _ | f
  · by_cases h1 : d.get.1 = kIOReturnSuccess <;> by_cases h2 : isnan o.brightness = false <;>
      by_cases h3 : d.set o.brightness = kIOReturnSuccess <;>
      simp [fprintfIf, fprintf, h1, h2, h3]
  · cases f <;> by_cases h1 : d.get.1 = kIOReturnSuccess <;>
      by_cases h2 : isnan o.brightness = false <;>
      by_cases h3 : d.set o.brightness = kIOReturnSuccess <;>
      simp [fprintfIf, fprintf, h1, h2, h3]

theorem getAndSet_counter (lc : Libc V) (o : Options V) (d : Display V) (w : World V) :
    (getAndSet lc o d w).number_of_displays_set =
      w.number_of_displays_set +
        (if d.get.1 = kIOReturnSuccess ∧ isnan o.brightness = false ∧
            d.set o.brightness = kIOReturnSuccess then 1 else 0) := by
  unfold getAndSet
  rcases ho : o.outfile with _ | f
  · by_cases h1 : d.get.1 = kIOReturnSuccess <;> by_cases h2 : isnan o.brightness = false <;>
      by_cases h3 : d.set o.brightness = kIOReturnSuccess <;>
      simp [fprintfIf, fprintf, h1, h2, h3]
  · cases f <;> by_cases h1 : d.get.1 = kIOReturnSuccess <;>
      by_cases h2 : isnan o.brightness = false <;>
      by_cases h3 : d.set o.brightness = kIOReturnSuccess <;>
      simp [fprintfIf, fprintf, h1, h2, h3]

/-- The text `getAndSet` writes to `stderr` when `outfile` is not `stderr`. -/
theorem getAndSet_err (lc : Libc V) (o : Options V) (d : Display V) (w : World V)
    (ho : o.outfile ≠ some FILE.stderr) :
    (getAndSet lc o d w).err =
      w.err ++
        (if d.get.1 = kIOReturnSuccess ∧ isnan o.brightness = false ∧
            d.set o.brightness ≠ kIOReturnSuccess then
          "\nError: Could not set brightness (".toList ++ printf_lu (d.set o.brightness) ++
            ").\n".toList
        else []) := by
  unfold getAndSet
  rcases ho' : o.outfile with _ | f
  · by_cases h1 : d.get.1 = kIOReturnSuccess <;> by_cases h2 : isnan o.brightness = false <;>
      by_cases h3 : d.set o.brightness = kIOReturnSuccess <;>
      simp [fprintfIf, fprintf, h1, h2, h3]
  · cases f
    · by_cases h1 : d.get.1 = kIOReturnSuccess <;>
        by_cases h2 : isnan o.brightness = false <;>
        by_cases h3 : d.set o.brightness = kIOReturnSuccess <;>
        simp [fprintfIf, fprintf, h1, h2, h3]
    · exact absurd ho' ho

/-- The text `getAndSet` writes to `stdout` when `outfile` is `stdout`. -/
theorem getAndSet_out (lc : Libc V) (o : Options V) (d : Display V) (w : World V)
    (ho : o.outfile = some FILE.stdout) :
    (getAndSet lc o d w).out =
      w.out ++
        (if d.get.1 = kIOReturnSuccess then lc.printf_3f d.get.2 else []) ++
        (if d.get.1 = kIOReturnSuccess ∧ isnan o.brightness = false ∧
            d.set o.brightness = kIOReturnSuccess then
          " -> ".toList ++ lc.printf_3f o.brightness else []) ++
        "\n".toList := by
  unfold getAndSet
  by_cases h1 : d.get.1 = kIOReturnSuccess <;> by_cases h2 : isnan o.brightness = false <;>
    by_cases h3 : d.set o.brightness = kIOReturnSuccess <;>
    simp [fprintfIf, fprintf, h1, h2, h3, ho]

/-- Nothing is written to `stdout` by `getAndSet` when `outfile` is NULL. -/
theorem getAndSet_out_quiet (lc : Libc V) (o : Options V) (d : Display V) (w : World V)
    (ho : o.outfile = none) : (getAndSet lc o d w).out = w.out := by
  unfold getAndSet
  by_cases h1 : d.get.1 = kIOReturnSuccess <;> by_cases h2 : isnan o.brightness = false <;>
    by_cases h3 : d.set o.brightness = kIOReturnSuccess <;>
    simp [fprintfIf, fprintf, h1, h2, h3, ho]

theorem displayStep_skipped (lc : Libc V) (o : Options V) (w : World V) (d : Display V)
    (h : skipped o (name_of_display d) = true) : displayStep lc o w d = .ok w := by
  simp [displayStep, h]

theorem displayStep_quiet (lc : Libc V) (o : Options V) (w : World V) (d : Display V)
    (hq : o.outfile = none) (h : skipped o (name_of_display d) = false) :
    displayStep lc o w d = .ok (getAndSet lc o d w) := by
  simp [displayStep, h, hq]

theorem displayStep_named (lc : Libc V) (o : Options V) (w : World V) (d : Display V)
    (s : CString) (hname : name_of_display d = some s) (h : skipped o (some s) = false) :
    displayStep lc o w d = .ok (getAndSet lc o d (fprintfIf o.outfile (nameField s) w)) := by
  unfold displayStep
  rw [hname]
  simp only [h, Bool.false_eq_true, if_false]
  cases o.outfile <;> simp [fprintfIf]

/-- The iteration in which `strlen(NULL)` is reached. -/
theorem displayStep_null (lc : Libc V) (o : Options V) (w : World V) (d : Display V)
    (f : FILE) (hname : name_of_display d = none) (hout : o.outfile = some f)
    (hfilter : o.only_set_one_display = none) : displayStep lc o w d = .error w := by
  unfold displayStep
  rw [hname]
  simp [skipped, hfilter, hout]

theorem skipped_of_ne (o : Options V) (F : CString) (hF : o.only_set_one_display = some F)
    (name : Option CString) (h : name ≠ some F) : skipped o name = true := by
  unfold skipped
  rw [hF]
  cases name with
  | none => rfl
  | some n =>
    simp only [bne_iff_ne, ne_eq]
    intro hn
    exact h (by rw [hn])

theorem skipped_self (o : Options V) (F : CString) (hF : o.only_set_one_display = some F) :
    skipped o (some F) = false := by
  unfold skipped
  rw [hF]
  simp

theorem displayLoop_append (lc : Libc V) (o : Options V) (l2 : List (Display V)) :
    ∀ (l1 : List (Display V)) (w w' : World V),
      displayLoop lc o w l1 = .ok w' →
        displayLoop lc o w (l1 ++ l2) = displayLoop lc o w' l2 := by
  intro l1
  induction l1 with
  | nil =>
    intro w w' h
    simp only [displayLoop, Except.ok.injEq] at h
    simp [h]
  | cons d rest ih =>
    intro w w' h
    simp only [List.cons_append, displayLoop] at h ⊢
    cases hs : displayStep lc o w d with
    | error e => rw [hs] at h; simp at h
    | ok w1 =>
      rw [hs] at h
      simp only at h ⊢
      exact ih _ _ h

/-- A list of displays that the filter skips leaves the state as it is. -/
theorem displayLoop_all_skipped (lc : Libc V) (o : Options V) (w : World V) :
    ∀ (l : List (Display V)), (∀ x ∈ l, skipped o (name_of_display x) = true) →
      displayLoop lc o w l = .ok w := by
  intro l
  induction l with
  | nil => intro _; rfl
  | cons d rest ih =>
    intro h
    simp only [displayLoop]
    rw [displayStep_skipped lc o w d (h d (List.mem_cons_self _ _))]
    exact ih (fun x hx => h x (List.mem_cons_of_mem _ hx))

theorem toInt32_of_lt (n : Nat) (h : n < 2 ^ 31) : toInt32 (n : Int) = n := by
  unfold toInt32
  have h1 : (0 : Int) ≤ (n : Int) + 2 ^ 31 := by positivity
  have h2 : (n : Int) + 2 ^ 31 < 2 ^ 32 := by
    have : (n : Int) < 2 ^ 31 := by exact_mod_cast h
    linarith
  rw [Int.emod_eq_of_lt h1 h2]
  ring

/-- For a name whose length fits a C `int`, the padding fills the name up to
`NAME_WIDTH` characters and is empty for a longer name. -/
theorem printfPad_padWidth (s : CString) (h : s.length < 2 ^ 31) :
    printfPad (padWidth s) = List.replicate (20 - s.length) ' ' := by
  unfold printfPad padWidth
  simp only [toInt32_of_lt s.length h, NAME_WIDTH]
  congr 1
  split
  · rename_i hlt
    have : s.length < 20 := by exact_mod_cast hlt
    omega
  · rename_i hge
    have : ¬ s.length < 20 := by
      intro hlt
      exact hge (by exact_mod_cast hlt)
    simp only [Int.natAbs_zero]
    omega

theorem displayLoop_quiet (lc : Libc V) (o : Options V) (hq : o.outfile = none) :
    ∀ (l : List (Display V)) (w : World V),
      ∃ w', displayLoop lc o w l = .ok w' ∧ w'.out = w.out := by
  intro l
  induction l with
  | nil => intro w; exact ⟨w, rfl, rfl⟩
  | cons d rest ih =>
    intro w
    simp only [displayLoop]
    cases hs : skipped o (name_of_display d) with
    | true =>
      rw [displayStep_skipped lc o w d hs]
      exact ih w
    | false =>
      rw [displayStep_quiet lc o w d hq hs]
      obtain ⟨w', h1, h2⟩ := ih (getAndSet lc o d w)
      exact ⟨w', h1, by rw [h2, getAndSet_out_quiet lc o d w hq]⟩

theorem report_exited (o : Options V) (w : World V) :
    ∃ status w', report o w = .exited status w' ∧ w'.out = w.out := by
  unfold report
  split
  · exact ⟨_, _, rfl, rfl⟩
  · exact ⟨_, _, rfl, rfl⟩

theorem main_cons (lc : Libc V) (io : IOKit V) (prog : CString) (args : List CString) :
    main lc io (prog :: args) =
      match parseArgs lc args Options.init with
      | .done argc o => enumerate lc io argc o
      | .exited status err =>
        .exited status { out := [], err := err, log := [], number_of_displays_set := 0 }
      | .undefined =>
        .undefined { out := [], err := [], log := [], number_of_displays_set := 0 } := rfl

/-- After accepted arguments and a successful enumeration, `main` runs the
display loop and then decides the exit status. -/
theorem main_of_done (lc : Libc V) (io : IOKit V) (prog : CString) (args : List CString)
    (a : Int) (o : Options V) (hparse : parseArgs lc args Options.init = .done a o)
    (hm : io.matching = kIOReturnSuccess) :
    main lc io (prog :: args) =
      match displayLoop lc o loopStart io.displays with
      | .ok w => report o w
      | .error w => .undefined w := by
  have ha : a = 0 := parseArgs_done_argc lc _ _ _ _ hparse
  subst ha
  rw [main_cons, hparse]
  simp only [enumerate, ne_eq, not_true_eq_false, if_false, hm, List.nil_append]
  rfl

/-- In quiet mode the part of `main` after the argument loop ends in an exit
with nothing written to `stdout`. -/
theorem enumerate_quiet (lc : Libc V) (io : IOKit V) (o : Options V) (hq : o.outfile = none) :
    ∃ status w, enumerate lc io 0 o = .exited status w ∧ w.out = [] := by
  unfold enumerate
  simp only [ne_eq, not_true_eq_false, if_false]
  split
  · exact ⟨_, _, rfl, rfl⟩
  · obtain ⟨w', h1, h2⟩ := displayLoop_quiet lc o hq io.displays
      { out := [], err := [], log := [] ++ [Event.getMatchingServices],
        number_of_displays_set := 0 }
    rw [h1]
    obtain ⟨status, w'', h3, h4⟩ := report_exited o w'
    exact ⟨status, w'', h3, by rw [h4, h2]⟩

theorem fprintfIf_counter (outfile : Option FILE) (s : CString) (w : World V) :
    (fprintfIf outfile s w).number_of_displays_set = w.number_of_displays_set := by
  rcases outfile with _ | f
  · rfl
  · cases f <;> rfl

theorem fprintfIf_log (outfile : Option FILE) (s : CString) (w : World V) :
    (fprintfIf outfile s w).log = w.log := by
  rcases outfile with _ | f
  · rfl
  · cases f <;> rfl

theorem fprintfIf_err (outfile : Option FILE) (s : CString) (w : World V)
    (ho : outfile ≠ some FILE.stderr) : (fprintfIf outfile s w).err = w.err := by
  rcases outfile with _ | f
  · rfl
  · cases f
    · rfl
    · exact absurd rfl ho

theorem isSet_of_skipped (o : Options V) (d : Display V)
    (h : skipped o (name_of_display d) = true) : isSet o d = false := by
  simp [isSet, h]

theorem isSet_of_not_skipped (o : Options V) (d : Display V)
    (h : skipped o (name_of_display d) = false) :
    isSet o d = decide (d.get.1 = kIOReturnSuccess ∧ isnan o.brightness = false ∧
      d.set o.brightness = kIOReturnSuccess) := by
  simp only [isSet, h, Bool.not_false, Bool.true_and]
  cases isnan o.brightness <;> simp

/-- What an iteration does to the counter when it reaches `next_display`. -/
theorem displayStep_counter (lc : Libc V) (o : Options V) (w w' : World V) (d : Display V)
    (h : displayStep lc o w d = .ok w') :
    w'.number_of_displays_set = w.number_of_displays_set + (if isSet o d then 1 else 0) := by
  cases hs : skipped o (name_of_display d) with
  | true =>
    rw [displayStep_skipped lc o w d hs] at h
    simp only [Except.ok.injEq] at h
    simp [← h, isSet_of_skipped o d hs]
  | false =>
    have hw : ∃ w0 : World V, w0.number_of_displays_set = w.number_of_displays_set ∧
        w' = getAndSet lc o d w0 := by
      cases hn : name_of_display d with
      | some s =>
        rw [hn] at hs
        rw [displayStep_named lc o w d s hn hs] at h
        simp only [Except.ok.injEq] at h
        exact ⟨_, fprintfIf_counter _ _ _, h.symm⟩
      | none =>
        cases hq : o.outfile with
        | none =>
          rw [displayStep_quiet lc o w d hq hs] at h
          simp only [Except.ok.injEq] at h
          exact ⟨w, rfl, h.symm⟩
        | some f =>
          have hf : o.only_set_one_display = none := by
            rw [hn] at hs
            unfold skipped at hs
            cases hfo : o.only_set_one_display with
            | none => rfl
            | some F => rw [hfo] at hs; simp at hs
          rw [displayStep_null lc o w d f hn hq hf] at h
          simp at h
    obtain ⟨w0, h0, rfl⟩ := hw
    rw [getAndSet_counter, h0, isSet_of_not_skipped o d hs]
    simp only [decide_eq_true_eq]

/-- At the end of the loop the counter has grown by the number of displays set. -/
theorem displayLoop_counter (lc : Libc V) (o : Options V) :
    ∀ (ds : List (Display V)) (w w' : World V), displayLoop lc o w ds = .ok w' →
      w'.number_of_displays_set = w.number_of_displays_set + countSet o ds := by
  intro ds
  induction ds with
  | nil =>
    intro w w' h
    simp only [displayLoop, Except.ok.injEq] at h
    simp [← h, countSet]
  | cons d rest ih =>
    intro w w' h
    simp only [displayLoop] at h
    cases hs : displayStep lc o w d with
    | error e => rw [hs] at h; simp at h
    | ok w1 =>
      rw [hs] at h
      simp only at h
      rw [ih w1 w' h, displayStep_counter lc o w w1 d hs]
      unfold countSet
      rw [List.countP_cons]
      split
      · simp; ring
      · simp

/-- The iterations that stop at `strlen(NULL)`: non-quiet mode, no filter, no name. -/
theorem displayStep_error_iff (lc : Libc V) (o : Options V) (w : World V) (d : Display V) :
    (∃ e, displayStep lc o w d = .error e) ↔
      o.outfile ≠ none ∧ o.only_set_one_display = none ∧ name_of_display d = none := by
  unfold displayStep skipped
  rcases hq : o.outfile with _ | f <;> rcases hf : o.only_set_one_display with _ | F <;>
    rcases hn : name_of_display d with _ | s <;> simp
  all_goals
    intro x
    split <;> simp

/-- The loop stops at `strlen(NULL)` exactly when it runs in non-quiet mode
without a filter over a sequence that holds a display without a name. -/
theorem displayLoop_error_iff (lc : Libc V) (o : Options V) :
    ∀ (ds : List (Display V)) (w : World V),
      (∃ e, displayLoop lc o w ds = .error e) ↔
        o.outfile ≠ none ∧ o.only_set_one_display = none ∧
          ∃ d ∈ ds, name_of_display d = none := by
  intro ds
  induction ds with
  | nil => intro w; simp [displayLoop]
  | cons d rest ih =>
    intro w
    simp only [displayLoop]
    cases hs : displayStep lc o w d with
    | error e =>
      have := (displayStep_error_iff lc o w d).1 ⟨e, hs⟩
      exact ⟨fun _ => ⟨this.1, this.2.1, d, List.mem_cons_self _ _, this.2.2⟩,
        fun _ => ⟨e, rfl⟩⟩
    | ok w1 =>
      simp only
      rw [ih w1]
      constructor
      · rintro ⟨h1, h2, x, hx, hxn⟩
        exact ⟨h1, h2, x, List.mem_cons_of_mem _ hx, hxn⟩
      · rintro ⟨h1, h2, x, hx, hxn⟩
        refine ⟨h1, h2, ?_⟩
        rcases List.mem_cons.1 hx with rfl | hx'
        · have : ∃ e, displayStep lc o w x = .error e :=
            (displayStep_error_iff lc o w x).2 ⟨h1, h2, hxn⟩
          obtain ⟨e, he⟩ := this
          rw [he] at hs
          simp at hs
        · exact ⟨x, hx', hxn⟩

end DisplayLoop

/-! ## The claims about the argument loop -/

section ArgumentClaims

variable {V : Type}

/-- C3: when `-s` or `-q` stands in option position (the arguments before it
are accepted by the loop), whatever follows it and whatever the displays
answer, the run ends in an exit and has written nothing to the normal
output stream. -/
theorem quiet_mode_silent (lc : Libc V) (io : IOKit V) (prog : CString)
    (pre suf : List CString) (flag : CString) (a : Int) (o : Options V)
    (hpre : parseArgs lc pre Options.init = .done a o)
    (hflag : flag = "-s".toList ∨ flag = "-q".toList) :
    ∃ status w, main lc io (prog :: (pre ++ flag :: suf)) = .exited status w ∧ w.out = [] := by
  have hopt : isOption flag = true := by rcases hflag with rfl | rfl <;> rfl
  have hs : charAt flag 1 = 's' ∨ charAt flag 1 = 'q' := by
    rcases hflag with rfl | rfl
    · exact Or.inl rfl
    · exact Or.inr rfl
  rw [main_cons, parseArgs_append lc (flag :: suf) pre _ _ _ hpre,
    parseArgs_quiet lc flag suf o hopt hs]
  cases hr : parseArgs lc suf { o with outfile := none } with
  | done a' o' =>
    have ha : a' = 0 := parseArgs_done_argc lc _ _ _ _ hr
    have hq : o'.outfile = none := parseArgs_outfile_none lc _ _ _ _ hr rfl
    subst ha
    exact enumerate_quiet lc io o' hq
  | exited status err => exact ⟨_, _, rfl, rfl⟩
  | undefined => exact absurd hr (parseArgs_defined lc _ _)

theorem quiet_mode_silent_witness :
    parseArgs sampleLibc (["-d", "External"].map String.toList) Options.init =
      .done 0 { outfile := some FILE.stdout, only_set_one_display := some "External".toList,
                brightness := NAN } ∧
    ∃ status w, main sampleLibc twoDisplays (cmd ["-d", "External", "-s", "0.25"]) =
      .exited status w ∧ w.out = [] :=
  ⟨rfl, quiet_mode_silent sampleLibc twoDisplays "brightness".toList
    (["-d", "External"].map String.toList) ["0.25".toList] "-s".toList 0 _ rfl (Or.inl rfl)⟩

/-- C4 (amended): when `-h` or `-?` stands in option position (the arguments
before it are accepted by the loop), whatever follows it, the run prints the
usage text to the error stream and exits with status 0 before any display is
enumerated. -/
theorem help_flag_in_option_position (lc : Libc V) (io : IOKit V) (prog : CString)
    (pre suf : List CString) (flag : CString) (a : Int) (o : Options V)
    (hpre : parseArgs lc pre Options.init = .done a o)
    (hflag : flag = "-h".toList ∨ flag = "-?".toList) :
    main lc io (prog :: (pre ++ flag :: suf)) =
      .exited EXIT_SUCCESS
        { out := [], err := usageText, log := [], number_of_displays_set := 0 } := by
  have hopt : isOption flag = true := by rcases hflag with rfl | rfl <;> rfl
  have hs : ¬ (charAt flag 1 = 's' ∨ charAt flag 1 = 'q') := by
    rcases hflag with rfl | rfl <;> decide
  have hh : charAt flag 1 = 'h' ∨ charAt flag 1 = '?' := by
    rcases hflag with rfl | rfl
    · exact Or.inl rfl
    · exact Or.inr rfl
  rw [main_cons, parseArgs_append lc (flag :: suf) pre _ _ _ hpre,
    parseArgs_help lc flag suf o hopt hs hh]

theorem help_flag_in_option_position_witness :
    parseArgs sampleLibc (["-s", "0.5"].map String.toList) Options.init =
      .done 0 { outfile := none, only_set_one_display := none, brightness := .val (1, -1) } ∧
    main sampleLibc twoDisplays (cmd ["-s", "0.5", "-?", "-x"]) =
      .exited EXIT_SUCCESS
        { out := [], err := usageText, log := [], number_of_displays_set := 0 } :=
  ⟨rfl, help_flag_in_option_position sampleLibc twoDisplays "brightness".toList
    (["-s", "0.5"].map String.toList) ["-x".toList] "-?".toList 0 _ rfl (Or.inr rfl)⟩

/-- C4 refuted as stated: in `brightness -x -h` the loop stops at `-x` with a
failure status before it reads `-h`, and in `brightness -d -h` the token `-h`
is taken as the display name: no usage text is printed and the displays are
enumerated. -/
theorem help_flag_not_reached :
    main sampleLibc twoDisplays (cmd ["-x", "-h"]) =
      .exited EXIT_FAILURE
        { out := [], err := "Invalid option: -x\n".toList ++ usageText, log := [],
          number_of_displays_set := 0 } ∧
    main sampleLibc twoDisplays (cmd ["-d", "-h"]) =
      .exited EXIT_SUCCESS
        { out := [], err := [], log := [Event.getMatchingServices],
          number_of_displays_set := 0 } :=
  ⟨rfl, rfl⟩

/-- C5 (amended): a token `N` that is not of the option form (two characters,
the first a dash), that `strtof` converts without a range error and whose
value is not NaN, is accepted as the only argument: the loop ends with the
requested brightness equal to the converted value and `main` goes on to the
enumeration, where a set is requested: every display whose brightness is read
without error gets the set call with that value. -/
theorem single_brightness_token (lc : Libc V) (io : IOKit V) (prog N : CString) (v : V)
    (hopt : isOption N = false) (heptr : (lc.strtof N).eptr ≠ 0)
    (hrange : (lc.strtof N).errno ≠ ERANGE) (hval : (lc.strtof N).value = .val v) :
    parseArgs lc [N] Options.init =
      .done 0 { outfile := some FILE.stdout, only_set_one_display := none,
                brightness := .val v } ∧
    main lc io [prog, N] =
      enumerate lc io 0 { outfile := some FILE.stdout, only_set_one_display := none,
                          brightness := .val v } ∧
    ∀ (w : World V) (d : Display V), d.get.1 = kIOReturnSuccess →
      (getAndSet lc { outfile := some FILE.stdout, only_set_one_display := none,
                      brightness := .val v } d w).log =
        w.log ++ [Event.getFloat d.handle, Event.setFloat d.handle (.val v)] := by
  have hv : parseValue lc N Options.init =
      .ok { outfile := some FILE.stdout, only_set_one_display := none,
            brightness := .val v } := by
    unfold parseValue
    simp [Options.init, NAN, isnan, heptr, hrange, hval]
  have hp : parseArgs lc [N] Options.init =
      .done 0 { outfile := some FILE.stdout, only_set_one_display := none,
                brightness := .val v } := by
    rw [parseArgs_value lc N [] _ hopt, hv]
    exact parseArgs_nil lc _
  refine ⟨hp, ?_, ?_⟩
  · rw [main_cons, hp]
  · intro w d hget
    rw [getAndSet_log]
    simp [hget, isnan]

theorem single_brightness_token_witness :
    (isOption "-.5".toList = false ∧ (sampleLibc.strtof "-.5".toList).eptr ≠ 0 ∧
      (sampleLibc.strtof "-.5".toList).errno ≠ ERANGE ∧
      (sampleLibc.strtof "-.5".toList).value = .val (-1, -1)) ∧
    parseArgs sampleLibc ["-.5".toList] Options.init =
      .done 0 { outfile := some FILE.stdout, only_set_one_display := none,
                brightness := .val (-1, -1) } :=
  ⟨⟨rfl, by decide, by decide, rfl⟩,
    (single_brightness_token sampleLibc twoDisplays "brightness".toList "-.5".toList (-1, -1)
      rfl (by decide) (by decide) rfl).1⟩

/-- C5 refuted as stated: `strtof` converts the token `-5` to the number -5
without a range error, yet `brightness -5` is rejected as an invalid option. -/
theorem negative_digit_is_an_option :
    ((sampleLibc.strtof "-5".toList).eptr = 2 ∧ (sampleLibc.strtof "-5".toList).errno = 0 ∧
      (sampleLibc.strtof "-5".toList).value = .val (-5, 0)) ∧
    main sampleLibc twoDisplays (cmd ["-5"]) =
      .exited EXIT_FAILURE
        { out := [], err := "Invalid option: -5\n".toList ++ usageText, log := [],
          number_of_displays_set := 0 } :=
  ⟨⟨rfl, rfl, rfl⟩, rfl⟩

/-- C6 (amended): a token in option position (the arguments before it are
accepted by the loop) that is not of the option form (two characters, the
first a dash) is rejected with `Invalid argument`, the usage text and a
failure status, whatever follows it, when an earlier argument has set a
brightness that is not NaN or when `strtof` converts nothing of it. A token
of the option form whose second character is none of `s q h ? d m`, such as
`-5`, is rejected in the same way with `Invalid option`. -/
theorem second_brightness_rejected (lc : Libc V) (io : IOKit V) (prog : CString)
    (pre suf : List CString) (tok : CString) (a : Int) (o : Options V)
    (hpre : parseArgs lc pre Options.init = .done a o) :
    (isOption tok = false →
      (isnan o.brightness = false ∨ (lc.strtof tok).eptr = 0) →
      main lc io (prog :: (pre ++ tok :: suf)) =
        .exited EXIT_FAILURE
          { out := [], err := "Invalid argument: ".toList ++ tok ++ "\n".toList ++ usageText,
            log := [], number_of_displays_set := 0 }) ∧
    (isOption tok = true →
      charAt tok 1 ∉ ['s', 'q', 'h', '?', 'd', 'm'] →
      main lc io (prog :: (pre ++ tok :: suf)) =
        .exited EXIT_FAILURE
          { out := [], err := "Invalid option: ".toList ++ tok ++ "\n".toList ++ usageText,
            log := [], number_of_displays_set := 0 }) := by
  refine ⟨fun hopt hrej => ?_, fun hopt hflag => ?_⟩
  swap
  · simp only [List.mem_cons, List.mem_singleton, List.not_mem_nil, or_false, not_or] at hflag
    rw [main_cons, parseArgs_append lc (tok :: suf) pre _ _ _ hpre,
      parseArgs_unknown_option lc tok suf o hopt (by tauto) (by tauto) (by tauto)]
  have hv : parseValue lc tok o =
      .error (.exited EXIT_FAILURE
        ("Invalid argument: ".toList ++ tok ++ "\n".toList ++ usageText)) := by
    cases hp : parseValue lc tok o with
    | ok o1 =>
      have hok := parseValue_ok hp
      rcases hrej with h | h
      · rw [h] at hok
        exact absurd hok.1 (by simp)
      · exact absurd h hok.2.1
    | error r => rw [parseValue_error hp]
  rw [main_cons, parseArgs_append lc (tok :: suf) pre _ _ _ hpre,
    parseArgs_value lc tok suf o hopt, hv]

theorem second_brightness_rejected_witness :
    (parseArgs sampleLibc (["0.5", "-q"].map String.toList) Options.init =
      .done 0 { outfile := none, only_set_one_display := none, brightness := .val (1, -1) } ∧
      isOption "0.25".toList = false ∧ isOption "-1".toList = true) ∧
    main sampleLibc twoDisplays (cmd ["0.5", "-q", "0.25", "-h"]) =
      .exited EXIT_FAILURE
        { out := [], err := "Invalid argument: 0.25\n".toList ++ usageText,
          log := [], number_of_displays_set := 0 } ∧
    main sampleLibc twoDisplays (cmd ["0.5", "-q", "-1", "-h"]) =
      .exited EXIT_FAILURE
        { out := [], err := "Invalid option: -1\n".toList ++ usageText,
          log := [], number_of_displays_set := 0 } :=
  ⟨⟨rfl, rfl, rfl⟩,
    (second_brightness_rejected sampleLibc twoDisplays "brightness".toList
      (["0.5", "-q"].map String.toList) ["-h".toList] "0.25".toList 0 _ rfl).1 rfl (Or.inl rfl),
    (second_brightness_rejected sampleLibc twoDisplays "brightness".toList
      (["0.5", "-q"].map String.toList) ["-h".toList] "-1".toList 0 _ rfl).2 rfl (by decide)⟩

/-- C6 refuted as stated: in `brightness 0.5 -5` both tokens are ones that
`strtof` converts to a number and neither is the argument of `-d` or `-m`,
yet the second is reported as `Invalid option`, not as `Invalid argument`. -/
theorem second_value_reported_as_option :
    ((sampleLibc.strtof "0.5".toList).eptr = 3 ∧ (sampleLibc.strtof "-5".toList).eptr = 2) ∧
    main sampleLibc twoDisplays (cmd ["0.5", "-5"]) =
      .exited EXIT_FAILURE
        { out := [], err := "Invalid option: -5\n".toList ++ usageText, log := [],
          number_of_displays_set := 0 } ∧
    main sampleLibc twoDisplays (cmd ["0.5", "-5"]) ≠
      .exited EXIT_FAILURE
        { out := [], err := "Invalid argument: -5\n".toList ++ usageText, log := [],
          number_of_displays_set := 0 } :=
  ⟨⟨rfl, rfl⟩, rfl, by decide⟩

/-- C7: when `-d` or `-m` is the last argument and stands in option position
(the arguments before it are accepted by the loop), the run prints
`Invalid option`, the usage text, and exits with a failure status without
any call to the display services; and when an argument follows `-d` or `-m`,
it becomes the filter whatever its text, and the loop goes on with the
argument after it. -/
theorem missing_filter_argument (lc : Libc V) (io : IOKit V) (prog : CString)
    (pre : List CString) (flag : CString) (a : Int) (o : Options V)
    (hpre : parseArgs lc pre Options.init = .done a o)
    (hflag : flag = "-d".toList ∨ flag = "-m".toList) :
    main lc io (prog :: (pre ++ [flag])) =
      .exited EXIT_FAILURE
        { out := [], err := "Invalid option: ".toList ++ flag ++ "\n".toList ++ usageText,
          log := [], number_of_displays_set := 0 } ∧
    ∀ (name : CString) (suf : List CString),
      parseArgs lc (pre ++ flag :: name :: suf) Options.init =
        parseArgs lc suf { o with only_set_one_display := some name } := by
  have hopt : isOption flag = true := by rcases hflag with rfl | rfl <;> rfl
  have hs : ¬ (charAt flag 1 = 's' ∨ charAt flag 1 = 'q') := by
    rcases hflag with rfl | rfl <;> decide
  have hh : ¬ (charAt flag 1 = 'h' ∨ charAt flag 1 = '?') := by
    rcases hflag with rfl | rfl <;> decide
  have hd : charAt flag 1 = 'd' ∨ charAt flag 1 = 'm' := by
    rcases hflag with rfl | rfl
    · exact Or.inl rfl
    · exact Or.inr rfl
  constructor
  · rw [main_cons, parseArgs_append lc [flag] pre _ _ _ hpre,
      parseArgs_filter_missing lc flag o hopt hs hh hd]
  · intro name suf
    rw [parseArgs_append lc (flag :: name :: suf) pre _ _ _ hpre,
      parseArgs_filter lc flag name suf o hopt hs hh hd]

theorem missing_filter_argument_witness :
    parseArgs sampleLibc (["0.5", "-s"].map String.toList) Options.init =
      .done 0 { outfile := none, only_set_one_display := none, brightness := .val (1, -1) } ∧
    main sampleLibc twoDisplays (cmd ["0.5", "-s", "-m"]) =
      .exited EXIT_FAILURE
        { out := [], err := "Invalid option: -m\n".toList ++ usageText,
          log := [], number_of_displays_set := 0 } ∧
    parseArgs sampleLibc (["0.5", "-s", "-m", "-h", "-q"].map String.toList) Options.init =
      parseArgs sampleLibc ["-q".toList]
        { outfile := none, only_set_one_display := some "-h".toList,
          brightness := .val (1, -1) } :=
  have h := missing_filter_argument sampleLibc twoDisplays "brightness".toList
    (["0.5", "-s"].map String.toList) "-m".toList 0 _ rfl (Or.inr rfl)
  ⟨rfl, h.1, h.2 "-h".toList ["-q".toList]⟩

end ArgumentClaims

/-! ## The claims about the display loop -/

section DisplayClaims

variable {V : Type}

/-- C2: with a filter `F` configured, a display whose resolved name is absent
or differs from `F` leaves the whole state as it is (nothing is written, no
brightness is read or written, the counter keeps its value); and when exactly
one display of the sequence is named `F`, the loop does what the iteration on
that display alone does: it writes that display's line and reads and sets
that display only. -/
theorem filter_skips_other_displays (lc : Libc V) (o : Options V) (F : CString)
    (hF : o.only_set_one_display = some F) :
    (∀ (w : World V) (d : Display V), name_of_display d ≠ some F →
        displayStep lc o w d = .ok w) ∧
    (∀ (w : World V) (before after : List (Display V)) (d : Display V),
        name_of_display d = some F →
        (∀ x ∈ before ++ after, name_of_display x ≠ some F) →
        displayLoop lc o w (before ++ d :: after) = displayStep lc o w d ∧
        displayStep lc o w d =
          .ok (getAndSet lc o d (fprintfIf o.outfile (nameField F) w))) := by
  refine ⟨fun w d hd => displayStep_skipped lc o w d (skipped_of_ne o F hF _ hd), ?_⟩
  intro w before after d hd hothers
  have hstep := displayStep_named lc o w d F hd (skipped_self o F hF)
  refine ⟨?_, hstep⟩
  have hb : displayLoop lc o w before = .ok w :=
    displayLoop_all_skipped lc o w before
      (fun x hx => skipped_of_ne o F hF _ (hothers x (List.mem_append_left _ hx)))
  rw [displayLoop_append lc o (d :: after) before w w hb]
  simp only [displayLoop]
  rw [hstep]
  exact displayLoop_all_skipped lc o _ after
    (fun x hx => skipped_of_ne o F hF _ (hothers x (List.mem_append_right _ hx)))

theorem filter_skips_other_displays_witness :
    displayLoop sampleLibc
        { outfile := some FILE.stdout, only_set_one_display := some "External".toList,
          brightness := .val (1, -2) }
        loopStart
        [namedDisplay 1 "Color LCD" (13421773, -24), namelessDisplay 3 (1, 0),
          namedDisplay 2 "External" (1, -1), namedDisplay 4 "Other" (1, -1)] =
      .ok { out := "'External'             0.500 -> 0.250\n".toList, err := [],
            log := [Event.getMatchingServices, Event.getFloat 2,
              Event.setFloat 2 (.val (1, -2))],
            number_of_displays_set := 1 } :=
  ((filter_skips_other_displays sampleLibc
      { outfile := some FILE.stdout, only_set_one_display := some "External".toList,
        brightness := .val (1, -2) } "External".toList rfl).2 loopStart
      [namedDisplay 1 "Color LCD" (13421773, -24), namelessDisplay 3 (1, 0)]
      [namedDisplay 4 "Other" (1, -1)] (namedDisplay 2 "External" (1, -1)) rfl
      (by
        intro x hx
        simp only [List.cons_append, List.nil_append, List.mem_cons, List.mem_singleton,
          List.not_mem_nil, or_false] at hx
        rcases hx with rfl | rfl | rfl <;> decide)).1.trans rfl

/-- C8: in non-quiet mode, for a display with the resolved name `s` that the
filter does not skip, the iteration appends to the normal stream a quote, the
whole of `s` (whatever its length), a quote, the padding, one space, the
current brightness when the read succeeded, `" -> "` and the requested
brightness exactly when the write was attempted and succeeded, and a newline.
For a name whose length fits a C `int` the padding is `max(0, 20 - length)`
spaces, so that the name and the padding take `max(20, length)` characters. -/
theorem display_line_format (lc : Libc V) (o : Options V) (w : World V) (d : Display V)
    (s : CString) (hname : name_of_display d = some s)
    (hout : o.outfile = some FILE.stdout) (hskip : skipped o (some s) = false) :
    (∃ w', displayStep lc o w d = .ok w' ∧
      w'.out = w.out ++ "'".toList ++ s ++ "'".toList ++ printfPad (padWidth s) ++ " ".toList ++
        (if d.get.1 = kIOReturnSuccess then lc.printf_3f d.get.2 else []) ++
        (if d.get.1 = kIOReturnSuccess ∧ isnan o.brightness = false ∧
            d.set o.brightness = kIOReturnSuccess then
          " -> ".toList ++ lc.printf_3f o.brightness else []) ++
        "\n".toList) ∧
    (s.length < 2 ^ 31 →
      printfPad (padWidth s) = List.replicate (20 - s.length) ' ' ∧
      (s ++ printfPad (padWidth s)).length = max 20 s.length) := by
  constructor
  · refine ⟨_, displayStep_named lc o w d s hname hskip, ?_⟩
    rw [getAndSet_out lc o d _ hout, hout]
    simp only [fprintfIf, fprintf, nameField, List.append_assoc]
  · intro hlen
    refine ⟨printfPad_padWidth s hlen, ?_⟩
    rw [printfPad_padWidth s hlen]
    simp only [List.length_append, List.length_replicate]
    clear hlen
    omega

theorem display_line_format_witness :
    ("Color LCD".toList.length < 2 ^ 31 ∧
      printfPad (padWidth "Color LCD".toList) = List.replicate 11 ' ') ∧
    ∃ w', displayStep sampleLibc
        { outfile := some FILE.stdout, only_set_one_display := none, brightness := .val (1, 0) }
        loopStart (namedDisplay 1 "Color LCD" (13421773, -24)) = .ok w' ∧
      w'.out = "'Color LCD'            0.800 -> 1.000\n".toList :=
  have h := display_line_format sampleLibc
    { outfile := some FILE.stdout, only_set_one_display := none, brightness := .val (1, 0) }
    loopStart (namedDisplay 1 "Color LCD" (13421773, -24)) "Color LCD".toList rfl rfl rfl
  ⟨⟨by decide, (h.2 (by decide)).1⟩,
    h.1.elim fun w' hw => ⟨w', hw.1, hw.2.trans rfl⟩⟩

/-- C9 on the code: a display without a name, met in non-quiet mode without a
filter, makes the iteration reach `strlen(NULL)`: the loop stops there and
the displays after it are not processed, here in `brightness 0.5` with a
nameless display before the displays "Color LCD" and "External". -/
theorem nameless_display_reaches_strlen_null :
    name_of_display (namelessDisplay 3 (1, -1)) = none ∧
    displayStep sampleLibc Options.init loopStart (namelessDisplay 3 (1, -1)) =
      .error loopStart ∧
    main sampleLibc
        { matching := kIOReturnSuccess,
          displays := namelessDisplay 3 (1, -1) :: twoDisplays.displays }
        (cmd ["0.5"]) = .undefined loopStart :=
  ⟨rfl, rfl, rfl⟩

/-- C1 on the code: `brightness` without arguments, run over one display that
has no name, requests no brightness and yet does not exit with success: it
reaches `strlen(NULL)` before anything is printed. -/
theorem listing_nameless_display_does_not_exit :
    main sampleLibc { matching := kIOReturnSuccess, displays := [namelessDisplay 1 (1, -1)] }
        (cmd []) = .undefined loopStart ∧
    ∀ w, main sampleLibc
        { matching := kIOReturnSuccess, displays := [namelessDisplay 1 (1, -1)] }
        (cmd []) ≠ .exited EXIT_SUCCESS w :=
  ⟨rfl, fun w h => by
    have h' : Outcome.undefined (loopStart : World Dyadic) = .exited EXIT_SUCCESS w := h
    simp at h'⟩

/-- C10: when the argument loop ends, `argc` (the counter) is zero, so the
assertion before the enumeration holds. For every sequence of displays the
loop either reaches its end with the counter grown by the number of displays
that pass the filter, are read and are written without error, or it stops at
`strlen(NULL)`, which happens exactly in non-quiet mode without a filter when
a display has no name; after a successful enumeration `main` decides the exit
status with the counter equal to that number. An iteration whose read fails
makes no write call, writes no error message and leaves the counter; one whose
write fails appends the message with the code to the error stream, leaves the
counter, and the loop goes on with the displays after it. -/
theorem success_counter (lc : Libc V) (io : IOKit V) (prog : CString)
    (args : List CString) (a : Int) (o : Options V)
    (hparse : parseArgs lc args Options.init = .done a o) :
    (a = 0 ∧ ∀ w, main lc io (prog :: args) ≠ .assertFailed w) ∧
    (∀ (w : World V) (ds : List (Display V)),
      (∃ w', displayLoop lc o w ds = .ok w' ∧
        w'.number_of_displays_set = w.number_of_displays_set + countSet o ds) ∨
      ((∃ e, displayLoop lc o w ds = .error e) ∧ o.outfile ≠ none ∧
        o.only_set_one_display = none ∧ ∃ d ∈ ds, name_of_display d = none)) ∧
    (io.matching = kIOReturnSuccess → ∀ w',
      displayLoop lc o loopStart io.displays = .ok w' →
        main lc io (prog :: args) = report o w' ∧
        w'.number_of_displays_set = countSet o io.displays) ∧
    (∀ (w : World V) (d : Display V),
      (o.outfile = none ∨ name_of_display d ≠ none) →
      skipped o (name_of_display d) = false → d.get.1 ≠ kIOReturnSuccess →
        ∃ w', displayStep lc o w d = .ok w' ∧
          w'.log = w.log ++ [Event.getFloat d.handle] ∧ w'.err = w.err ∧
          w'.number_of_displays_set = w.number_of_displays_set) ∧
    (∀ (w : World V) (d : Display V) (rest : List (Display V)),
      (o.outfile = none ∨ name_of_display d ≠ none) →
      skipped o (name_of_display d) = false → d.get.1 = kIOReturnSuccess →
      isnan o.brightness = false → d.set o.brightness ≠ kIOReturnSuccess →
        ∃ w', displayStep lc o w d = .ok w' ∧
          w'.err = w.err ++ "\nError: Could not set brightness (".toList ++
            printf_lu (d.set o.brightness) ++ ").\n".toList ∧
          w'.number_of_displays_set = w.number_of_displays_set ∧
          displayLoop lc o w (d :: rest) = displayLoop lc o w' rest) := by
  have ha : a = 0 := parseArgs_done_argc lc _ _ _ _ hparse
  have hne : o.outfile ≠ some FILE.stderr :=
    parseArgs_outfile_ne_stderr lc _ _ _ _ hparse (by simp [Options.init])
  subst ha
  -- every iteration that does not stop at `strlen(NULL)` runs `getAndSet`
  have hstep : ∀ (w : World V) (d : Display V),
      (o.outfile = none ∨ name_of_display d ≠ none) →
      skipped o (name_of_display d) = false →
      ∃ w0 : World V, displayStep lc o w d = .ok (getAndSet lc o d w0) ∧
        w0.log = w.log ∧ w0.err = w.err ∧
        w0.number_of_displays_set = w.number_of_displays_set := by
    intro w d hdef hs
    cases hn : name_of_display d with
    | some s =>
      rw [hn] at hs
      exact ⟨_, displayStep_named lc o w d s hn hs, fprintfIf_log _ _ _,
        fprintfIf_err _ _ _ hne, fprintfIf_counter _ _ _⟩
    | none =>
      rcases hdef with hq | hnn
      · exact ⟨w, displayStep_quiet lc o w d hq hs, rfl, rfl, rfl⟩
      · exact absurd hn hnn
  refine ⟨⟨rfl, ?_⟩, ?_, ?_, ?_, ?_⟩
  · intro w hw
    rw [main_cons, hparse] at hw
    simp only [enumerate, ne_eq, not_true_eq_false, if_false] at hw
    split at hw
    · simp at hw
    · split at hw
      · unfold report at hw
        split at hw <;> simp at hw
      · simp at hw
  · intro w ds
    cases hl : displayLoop lc o w ds with
    | ok w' => exact Or.inl ⟨w', rfl, displayLoop_counter lc o ds w w' hl⟩
    | error e =>
      exact Or.inr ⟨⟨e, rfl⟩, (displayLoop_error_iff lc o ds w).1 ⟨e, hl⟩⟩
  · intro hm w' hl
    constructor
    · rw [main_of_done lc io prog args 0 o hparse hm, hl]
    · rw [displayLoop_counter lc o _ _ w' hl]
      simp [loopStart]
  · intro w d hdef hs hget
    obtain ⟨w0, h0, hlog, herr, hcnt⟩ := hstep w d hdef hs
    refine ⟨_, h0, ?_, ?_, ?_⟩
    · rw [getAndSet_log, hlog]
      simp [hget]
    · rw [getAndSet_err lc o d w0 hne, herr]
      simp [hget]
    · rw [getAndSet_counter, hcnt]
      simp [hget]
  · intro w d rest hdef hs hget hreq hset
    obtain ⟨w0, h0, _, herr, hcnt⟩ := hstep w d hdef hs
    refine ⟨_, h0, ?_, ?_, ?_⟩
    · rw [getAndSet_err lc o d w0 hne, herr]
      simp [hget, hreq, hset]
    · rw [getAndSet_counter, hcnt]
      simp [hset]
    · simp only [displayLoop]
      rw [h0]

theorem success_counter_witness :
    parseArgs sampleLibc (["-d", "External", "0.3"].map String.toList) Options.init =
      .done 0 { outfile := some FILE.stdout, only_set_one_display := some "External".toList,
                brightness := .val (10066330, -25) } ∧
    ∀ w, main sampleLibc twoDisplays (cmd ["-d", "External", "0.3"]) ≠ .assertFailed w :=
  ⟨rfl, (success_counter sampleLibc twoDisplays "brightness".toList
    (["-d", "External", "0.3"].map String.toList) 0 _ rfl).1.2⟩

end DisplayClaims

/-! ## Further properties of the run -/

section Run

variable {V : Type}

/-- Exit status of a run that does not meet a nameless display in non-quiet
mode without a filter: after a successful enumeration the loop reaches its
end, and `main` exits with failure, after the line `Error: No displays could
be set` (with `matching ` before `displays` when a filter was given), if a
brightness was requested and no display was set, and with success otherwise. -/
theorem exit_status_of_completed_run (lc : Libc V) (io : IOKit V) (prog : CString)
    (args : List CString) (a : Int) (o : Options V)
    (hparse : parseArgs lc args Options.init = .done a o)
    (hm : io.matching = kIOReturnSuccess)
    (hnames : o.outfile = none ∨ o.only_set_one_display ≠ none ∨
      ∀ d ∈ io.displays, name_of_display d ≠ none) :
    ∃ w, displayLoop lc o loopStart io.displays = .ok w ∧
      w.number_of_displays_set = countSet o io.displays ∧
      main lc io (prog :: args) =
        if isnan o.brightness = false ∧ countSet o io.displays = 0 then
          .exited EXIT_FAILURE
            { w with err := w.err ++ "Error: No ".toList ++
                (if o.only_set_one_display.isSome then "matching ".toList else []) ++
                "displays could be set\n".toList }
        else .exited EXIT_SUCCESS w := by
  have ha : a = 0 := parseArgs_done_argc lc _ _ _ _ hparse
  subst ha
  cases hl : displayLoop lc o loopStart io.displays with
  | error e =>
    have h := (displayLoop_error_iff lc o io.displays loopStart).1 ⟨e, hl⟩
    rcases hnames with hq | hf | hn
    · exact absurd hq h.1
    · exact absurd h.2.1 hf
    · obtain ⟨d, hd, hdn⟩ := h.2.2
      exact absurd hdn (hn d hd)
  | ok w =>
    have hc : w.number_of_displays_set = countSet o io.displays := by
      rw [displayLoop_counter lc o _ _ w hl]
      simp [loopStart]
    refine ⟨w, rfl, hc, ?_⟩
    rw [main_of_done lc io prog args 0 o hparse hm, hl]
    simp only
    unfold report
    have hlt : w.number_of_displays_set < 1 ↔ countSet o io.displays = 0 := by
      rw [hc]
      constructor
      · intro h
        have : (countSet o io.displays : Int) = 0 := by
          have h0 : (0 : Int) ≤ (countSet o io.displays : Int) := Int.natCast_nonneg _
          omega
        exact_mod_cast this
      · intro h
        rw [h]
        decide
    simp only [hlt, fprintf, List.append_assoc]

theorem exit_status_of_completed_run_witness :
    ∃ w, displayLoop sampleLibc
        { outfile := some FILE.stdout, only_set_one_display := some "Nonexistent".toList,
          brightness := .val (10066330, -25) } loopStart twoDisplays.displays = .ok w ∧
      main sampleLibc twoDisplays (cmd ["-d", "Nonexistent", "0.3"]) =
        .exited EXIT_FAILURE
          { out := [], err := "Error: No matching displays could be set\n".toList,
            log := [Event.getMatchingServices], number_of_displays_set := 0 } :=
  (exit_status_of_completed_run sampleLibc twoDisplays "brightness".toList
    (["-d", "Nonexistent", "0.3"].map String.toList) 0 _ rfl rfl
    (Or.inr (Or.inl (by simp)))).elim fun w hw => ⟨w, hw.1, rfl⟩

/-- A token that `strtof` converts to NaN is accepted and leaves the requested
brightness unset: the loop goes on from the same options, so that a later
value is still accepted and no set is requested unless one follows. -/
theorem nan_token_leaves_brightness_unset (lc : Libc V) (pre suf : List CString)
    (tok : CString) (a : Int) (o : Options V)
    (hpre : parseArgs lc pre Options.init = .done a o)
    (hopt : isOption tok = false) (hunset : o.brightness = NAN)
    (heptr : (lc.strtof tok).eptr ≠ 0) (hrange : (lc.strtof tok).errno ≠ ERANGE)
    (hnan : (lc.strtof tok).value = NAN) :
    parseArgs lc (pre ++ tok :: suf) Options.init = parseArgs lc suf o := by
  have hv : parseValue lc tok o = .ok o := by
    unfold parseValue
    simp only [hunset, NAN, isnan, if_true, heptr, hrange, ne_eq, not_false_eq_true, and_self]
    rw [hnan, ← hunset]
  rw [parseArgs_append lc (tok :: suf) pre _ _ _ hpre, parseArgs_value lc tok suf o hopt, hv]

theorem nan_token_leaves_brightness_unset_witness :
    parseArgs sampleLibc (["-s", "nan", "0.5"].map String.toList) Options.init =
      parseArgs sampleLibc ["0.5".toList]
        { outfile := none, only_set_one_display := none, brightness := NAN } ∧
    main sampleLibc twoDisplays (cmd ["nan"]) =
      .exited EXIT_SUCCESS
        { out := "'Color LCD'            0.800\n'External'             0.500\n".toList,
          err := [], log := [Event.getMatchingServices, Event.getFloat 1, Event.getFloat 2],
          number_of_displays_set := 0 } :=
  ⟨nan_token_leaves_brightness_unset sampleLibc ["-s".toList] ["0.5".toList] "nan".toList 0 _
    rfl rfl rfl (by decide) (by decide) rfl, rfl⟩

/-- When `IOServiceGetMatchingServices` fails, `main` writes the error line with
the code to the error stream and returns `EXIT_FAILURE`: nothing is written to
the normal stream and no display is read or set. -/
theorem enumeration_failure (lc : Libc V) (io : IOKit V) (prog : CString)
    (args : List CString) (a : Int) (o : Options V)
    (hparse : parseArgs lc args Options.init = .done a o)
    (hm : io.matching ≠ kIOReturnSuccess) :
    main lc io (prog :: args) =
      .exited EXIT_FAILURE
        { out := [],
          err := "Error: Could not get displays (code ".toList ++ printf_lu io.matching ++
            ")\n".toList,
          log := [Event.getMatchingServices], number_of_displays_set := 0 } := by
  have ha : a = 0 := parseArgs_done_argc lc _ _ _ _ hparse
  subst ha
  rw [main_cons, hparse]
  simp [enumerate, hm, fprintf]

theorem enumeration_failure_witness :
    main sampleLibc { matching := -536870212, displays := twoDisplays.displays }
        (cmd ["0.5"]) =
      .exited EXIT_FAILURE
        { out := [],
          err := "Error: Could not get displays (code 18446744073172681404)\n".toList,
          log := [Event.getMatchingServices], number_of_displays_set := 0 } :=
  (enumeration_failure sampleLibc { matching := -536870212, displays := twoDisplays.displays }
    "brightness".toList ["0.5".toList] 0 _ rfl (by decide)).trans rfl

/-- The name `name_of_display` returns: the first value of the product-name
dictionary when that dictionary exists and has one or two entries, and NULL
in every other case. -/
theorem name_of_display_eq_some (d : Display V) (s : CString) :
    name_of_display d = some s ↔
      ∃ values, d.info = some (some values) ∧ (values.length = 1 ∨ values.length = 2) ∧
        values.head? = some s := by
  unfold name_of_display c_string_from_cfstring
  rcases d.info with _ | _ | values
  · simp
  · simp
  · rcases values with _ | ⟨v, rest⟩
    · simp
    · by_cases h : rest.length + 1 ≤ 2
      · have h' : rest.length = 0 ∨ rest.length + 1 = 2 := by omega
        simp only [List.length_cons, h, h', List.head?_cons, Option.some.injEq,
          exists_eq_left', le_add_iff_nonneg_left, zero_le, and_self, if_true,
          add_left_eq_self, true_and]
      · have h' : ¬ (rest.length = 0 ∨ rest.length + 1 = 2) := by omega
        simp only [List.length_cons, h, h', List.head?_cons, Option.some.injEq,
          exists_eq_left', le_add_iff_nonneg_left, zero_le, and_false, if_false,
          add_left_eq_self, false_and]
        simp

/-- A usage error or the help flag ends the run before any call to the display
services: the run exits with the status of `usage`, with what the argument
loop wrote on the error stream and nothing on the normal stream. -/
theorem usage_before_enumeration (lc : Libc V) (io : IOKit V) (prog : CString)
    (args : List CString) (status : Int) (err : CString)
    (hparse : parseArgs lc args Options.init = .exited status err) :
    main lc io (prog :: args) =
      .exited status { out := [], err := err, log := [], number_of_displays_set := 0 } := by
  rw [main_cons, hparse]

theorem usage_before_enumeration_witness :
    main sampleLibc twoDisplays (cmd ["0.5", "abc"]) =
      .exited EXIT_FAILURE
        { out := [], err := "Invalid argument: abc\n".toList ++ usageText, log := [],
          number_of_displays_set := 0 } :=
  usage_before_enumeration sampleLibc twoDisplays "brightness".toList
    (["0.5", "abc"].map String.toList) EXIT_FAILURE _ rfl

/-- With at least the program name in `argv`, `main` never reads past the end of
`argv` and never fails its assertion: it exits, or it reaches `strlen(NULL)`
in the display loop. -/
theorem main_exits_or_null_name (lc : Libc V) (io : IOKit V) (prog : CString)
    (args : List CString) :
    (∃ status w, main lc io (prog :: args) = .exited status w) ∨
    (∃ w o, main lc io (prog :: args) = .undefined w ∧
      parseArgs lc args Options.init = .done 0 o ∧ io.matching = kIOReturnSuccess ∧
      o.outfile ≠ none ∧ o.only_set_one_display = none ∧
      ∃ d ∈ io.displays, name_of_display d = none) := by
  cases hp : parseArgs lc args Options.init with
  | undefined => exact absurd hp (parseArgs_defined lc _ _)
  | exited status err =>
    refine Or.inl ⟨status,
      { out := [], err := err, log := [], number_of_displays_set := 0 }, ?_⟩
    rw [main_cons, hp]
  | done a o =>
    have ha : a = 0 := parseArgs_done_argc lc _ _ _ _ hp
    subst ha
    by_cases hm : io.matching = kIOReturnSuccess
    · have hmain := main_of_done lc io prog args 0 o hp hm
      cases hl : displayLoop lc o loopStart io.displays with
      | ok w =>
        rw [hl] at hmain
        obtain ⟨status, w', h, _⟩ := report_exited o w
        exact Or.inl ⟨status, w', hmain.trans h⟩
      | error e =>
        rw [hl] at hmain
        exact Or.inr ⟨e, o, hmain, rfl, hm, (displayLoop_error_iff lc o _ _).1 ⟨e, hl⟩⟩
    · have hmain : ∃ w, main lc io (prog :: args) = .exited EXIT_FAILURE w := by
        rw [main_cons, hp]
        simp only [enumerate, ne_eq, not_true_eq_false, if_false, hm, not_false_eq_true,
          if_true]
        exact ⟨_, rfl⟩
      obtain ⟨w, hw⟩ := hmain
      exact Or.inl ⟨EXIT_FAILURE, w, hw⟩

end Run

end Brightness
